import Mathlib

/-!
Shallow embedding of `src/lib/index.js` (mquery-cache): a TTL result cache
with (intended) single-flight refresh coordination, placed in front of a
query `exec` operation.

The JavaScript is single-threaded; "concurrent" requests are interleaved
calls on one execution context.  We model the mutable state explicitly and
each observable step (an arrival of an `exec` call, the settlement of an
outstanding fetch promise, a timer firing) as a pure state transformer.
Event emissions (`refresh`, `add`, `remove`, `expire`) are returned as
explicit event lists.
-/

namespace MqueryCache

/-- JavaScript-style values, enough to express the truthiness tests the
source performs (`this._data || null`, `if(results)`).  Objects are
represented by an id and are always truthy. -/
inductive JVal where
  | null : JVal
  | undef : JVal
  | bool : Bool → JVal
  | num : Int → JVal
  | str : String → JVal
  | obj : Nat → JVal
deriving DecidableEq, Repr

/-- JavaScript truthiness: `null`, `undefined`, `false`, `0` and `""` are
falsy; every other modelled value is truthy. -/
def JVal.truthy : JVal → Bool
  | .null => false
  | .undef => false
  | .bool b => b
  | .num n => n != 0
  | .str s => s != ""
  | .obj _ => true

/-! Association lists model plain JavaScript objects used as maps
(`this.values`, `this._ttlIntervals`): `lookupA` is property read,
`setA` is property assignment, `eraseA` is `delete obj[key]`. -/

/-- Read `l[k]`, the value bound to key `k`, if any. -/
def lookupA {α : Type} (k : Nat) : List (Nat × α) → Option α
  | [] => none
  | p :: rest => if p.1 = k then some p.2 else lookupA k rest

/-- Model of `delete obj[k]`: remove every binding of key `k`. -/
def eraseA {α : Type} (k : Nat) : List (Nat × α) → List (Nat × α)
  | [] => []
  | p :: rest => if p.1 = k then eraseA k rest else p :: eraseA k rest

/-- Model of `obj[k] = v`: bind `k` to `v`, dropping any prior binding. -/
def setA {α : Type} (k : Nat) (v : α) (l : List (Nat × α)) : List (Nat × α) :=
  (k, v) :: eraseA k l

/-- Number of bindings an association list holds for key `k`. -/
def countKey {α : Type} (k : Nat) : List (Nat × α) → Nat
  | [] => 0
  | p :: rest => (if p.1 = k then 1 else 0) + countKey k rest

/-- `CachedQuery(key, query, data, ttl)` from the source: one cache entry.
The source object extends `EventEmitter`; we record the promises registered
through `once('refresh', ...)` in `listeners` (the only listener kind the
module itself attaches to an entry).  `_data` starts as the `data`
constructor argument (`null` at every construction site in the module) and
`refreshing` starts `false`. -/
structure CachedQuery where
  key : Nat
  ttl : Nat
  _data : JVal
  refreshing : Bool
  listeners : List Nat
deriving DecidableEq, Repr

/-- The `data` getter: `return this._data || null;`. -/
def CachedQuery.data (c : CachedQuery) : JVal :=
  if c._data.truthy then c._data else JVal.null

/-- Result of running the `data` setter: the updated entry, the
`refresh` events emitted (new value and old value, in that order), and the
`once('refresh')` promises resolved by that emission, paired with the value
they are resolved with. -/
structure SetDataResult where
  entry : CachedQuery
  refreshEvs : List (JVal × JVal)
  resolvedWaiters : List (Nat × JVal)
deriving DecidableEq, Repr

/-- The `data` setter: record the old value, assign `_data`, then
`emit('refresh', val, oldval)`.  Emitting fires every `once('refresh')`
listener exactly once (each resolves its promise with the new value) and
removes them. -/
def CachedQuery.setData (c : CachedQuery) (val : JVal) : SetDataResult :=
  { entry := { c with _data := val, listeners := [] },
    refreshEvs := [(val, c._data)],
    resolvedWaiters := c.listeners.map (fun pid => (pid, val)) }

/-- A live `setTimeout` handle: the absolute time (ms) at which it fires
and a unique handle id (so cancelling and re-creating is observable). -/
structure Timer where
  deadline : Nat
  tid : Nat
deriving DecidableEq, Repr

/-- Events emitted by the collection and by entries. -/
inductive Ev where
  | add : Nat → Ev
  | remove : Ev
  | expire : Ev
  | refresh : JVal → JVal → Ev
deriving DecidableEq, Repr

/-- `TTLCacheCollection(values)`: keyed map of entries plus the live
expiry-timer handle per key.  The constructor accepts an initial `values`
map (for which no timers exist); the module itself constructs it empty. -/
structure TTLCacheCollection where
  values : List (Nat × CachedQuery)
  ttlIntervals : List (Nat × Timer)
deriving DecidableEq, Repr

/-- `TTLCacheCollection.prototype.remove(key, silent)`: only when a live
timer exists for `key`, clear it, delete both the timer handle and the
entry, and emit `remove` unless `silent`.  With no timer for `key` the
method does nothing. -/
def TTLCacheCollection.remove (c : TTLCacheCollection) (key : Nat) (silent : Bool) :
    TTLCacheCollection × List Ev :=
  match lookupA key c.ttlIntervals with
  | some _ =>
      ({ values := eraseA key c.values, ttlIntervals := eraseA key c.ttlIntervals },
       if silent then [] else [Ev.remove])
  | none => (c, [])

/-- `TTLCacheCollection.prototype.add(cache)`: first `remove(cache.key, true)`
(silently cancelling any prior timer for the key), then store the entry and
install a fresh timer of `cache.ttl * 1000` ms measured from `now`, then
emit `add`.  `tid` is the fresh `setTimeout` handle id. -/
def TTLCacheCollection.add (c : TTLCacheCollection) (cache : CachedQuery)
    (now tid : Nat) : TTLCacheCollection × List Ev :=
  let r := c.remove cache.key true
  ({ values := setA cache.key cache r.1.values,
     ttlIntervals := setA cache.key { deadline := now + cache.ttl * 1000, tid := tid } r.1.ttlIntervals },
   r.2 ++ [Ev.add cache.key])

/-- Body of the `setTimeout` callback installed by `add`: when the timer
for `key` fires, delete the entry and the handle and emit `expire`. -/
def TTLCacheCollection.expireFire (c : TTLCacheCollection) (key : Nat) :
    TTLCacheCollection × List Ev :=
  ({ values := eraseA key c.values, ttlIntervals := eraseA key c.ttlIntervals },
   [Ev.expire])

/-- `TTLCacheCollection.prototype.get(key)`: pure lookup. -/
def TTLCacheCollection.get (c : TTLCacheCollection) (key : Nat) : Option CachedQuery :=
  lookupA key c.values

/-- At most one live timer per key. -/
def TimerWF (c : TTLCacheCollection) : Prop :=
  ∀ k, countKey k c.ttlIntervals ≤ 1

/-! The cacheability predicate of `Query.prototype.cache`:
`/^(find)(?![a-z]+(update))/ig.test(this.op)`.  With the `i` flag the match
is case-insensitive, so we lower-case the operation first: the string must
start with `find`, and the remainder must not start with one or more
letters followed by `update` (which rules out e.g. `findOneAndUpdate`). -/

/-- Negative-lookahead body `[a-z]+(update)` tested at the position after
`find`: some split of `cs` into at least one leading letter block followed
immediately by the literal `update`. -/
def lettersThenUpdate (cs : List Char) : Bool :=
  (List.range (cs.length + 1)).any (fun k =>
    decide (1 ≤ k) && (cs.take k).all Char.isAlpha &&
      ((cs.drop k).take 6 == "update".data))

/-- Model of the regex test `/^(find)(?![a-z]+(update))/i` on `op`,
working on the operation's character list, lower-cased first. -/
def cacheableOp (op : String) : Bool :=
  let l := op.data.map Char.toLower
  (l.take 4 == "find".data) && !(lettersThenUpdate (l.drop 4))

/-- What `Query.prototype.cache(ttl)` leaves behind: either the overridden,
caching `exec` (closing over the requested `ttl`), or — when the operation
fails the cacheability test — the original `exec`, untouched. -/
inductive ExecMode where
  | cachedMode : Nat → ExecMode
  | passthrough : ExecMode
deriving DecidableEq, Repr

/-- `Query.prototype.cache(ttl)`: the `exec` override is installed only
when `cacheableOp` accepts the query's operation. -/
def Query.cache (op : String) (ttl : Nat) : ExecMode :=
  if cacheableOp op then ExecMode.cachedMode ttl else ExecMode.passthrough

/-- Settlement value of a promise, mirroring the `(err, results)` callback
convention: `ok results` or `err e`. -/
inductive FetchResult where
  | ok : JVal → FetchResult
  | err : JVal → FetchResult
deriving DecidableEq, Repr

/-- One outstanding fetch: the underlying `exec` has been invoked and its
promise `pid` has not settled yet.  For a fetch started by the overridden
`exec`, `cached` holds the episode's local `CachedQuery` object (the
`addBack` caching handler is registered on the promise); for a direct call
of the original `exec` it is `none` (no handler). -/
structure Episode where
  pid : Nat
  cached : Option CachedQuery
deriving DecidableEq, Repr

/-- What an `exec` call returns to its caller. -/
inductive CallResult where
  | fetching : Nat → CallResult
  | hit : JVal → CallResult
  | joined : CallResult
deriving DecidableEq, Repr

/-- The module-level mutable state plus the observation log: the shared
`caches` collection, the outstanding fetch episodes keyed by episode id,
how many times the underlying `exec` (the real fetch) has been invoked, a
fresh-id counter, the promise settlements observed so far (in order), the
events emitted so far, and the current time in ms. -/
structure Sys where
  caches : TTLCacheCollection
  pendingEps : List (Nat × Episode)
  fetchCount : Nat
  nextId : Nat
  resolved : List (Nat × FetchResult)
  events : List Ev
  now : Nat
deriving DecidableEq, Repr

/-- The state right after `module.exports` runs: `caches` is a fresh empty
`TTLCacheCollection`, nothing pending, nothing observed. -/
def Sys.init : Sys :=
  { caches := { values := [], ttlIntervals := [] },
    pendingEps := [], fetchCount := 0, nextId := 0,
    resolved := [], events := [], now := 0 }

/-- The original `Query.prototype.exec`: invoke the underlying fetch and
return a pending promise.  Returns the new state and the episode id. -/
def execPlain (s : Sys) : Sys × CallResult :=
  let pid := s.nextId
  let eid := s.nextId + 1
  ({ s with
      pendingEps := s.pendingEps ++ [(eid, { pid := pid, cached := none })],
      fetchCount := s.fetchCount + 1,
      nextId := s.nextId + 2 },
   CallResult.fetching eid)

/-- One arrival of the overridden `exec` for key `key` (the hash of the
query) with effective entry TTL `ttl` (the source's `ttl || options.ttl`).

Mirrors `Query.prototype.exec` in the override:
* store hit with `refreshing === false`: create a promise and resolve it
  synchronously with `cache.data` (the getter); the fetch is not invoked;
* store entry with `refreshing` true: register `once('refresh', ...)` on
  the stored entry to resolve a fresh promise later; no fetch started;
* miss: build `new CachedQuery(key, this, null, ttl)`, set `refreshing`,
  invoke the captured original `exec` (one more fetch), and register the
  `addBack` caching handler on its promise. -/
def execCall (s : Sys) (key ttl : Nat) : Sys × CallResult :=
  match s.caches.get key with
  | some cache =>
      if cache.refreshing = false then
        let pid := s.nextId
        ({ s with
            resolved := s.resolved ++ [(pid, FetchResult.ok cache.data)],
            nextId := s.nextId + 1 },
         CallResult.hit cache.data)
      else
        let pid := s.nextId
        let joinedEntry := { cache with listeners := cache.listeners ++ [pid] }
        ({ s with
            caches := { s.caches with values := setA key joinedEntry s.caches.values },
            nextId := s.nextId + 1 },
         CallResult.joined)
  | none =>
      let pid := s.nextId
      let eid := s.nextId + 1
      let entry : CachedQuery :=
        { key := key, ttl := ttl, _data := JVal.null, refreshing := true, listeners := [] }
      ({ s with
          pendingEps := s.pendingEps ++ [(eid, { pid := pid, cached := some entry })],
          fetchCount := s.fetchCount + 1,
          nextId := s.nextId + 2 },
       CallResult.fetching eid)

/-- Dispatch an incoming request after `Query.prototype.cache` ran: in
passthrough mode `exec` was never replaced, so the call goes straight to
the original `exec`. -/
def execDispatch (m : ExecMode) (s : Sys) (key : Nat) : Sys × CallResult :=
  match m with
  | ExecMode.cachedMode ttl => execCall s key ttl
  | ExecMode.passthrough => execPlain s

/-- Settlement of the fetch promise of episode `eid` with `res`, at the
state's current time; `tid` is the `setTimeout` handle id used if an expiry
timer is installed.  The `addBack` caching handler runs first (it is
registered before the promise is returned), then the caller's own promise
settles with `res`.  The handler body is `if(results) { cache.refreshing =
false; cache.data = results; caches.add(cache); }` — so a falsy result, or
a failure, leaves handler state untouched.  The second component returns
the episode's local `CachedQuery` object after the handler ran (discarded
by the program unless `add` stored it). -/
def settle (s : Sys) (eid : Nat) (res : FetchResult) (tid : Nat) :
    Sys × Option CachedQuery :=
  match lookupA eid s.pendingEps with
  | none => (s, none)
  | some ep =>
      let s0 := { s with pendingEps := eraseA eid s.pendingEps }
      match ep.cached with
      | none => ({ s0 with resolved := s0.resolved ++ [(ep.pid, res)] }, none)
      | some c =>
          match res with
          | FetchResult.ok v =>
              if v.truthy then
                let c1 := { c with refreshing := false }
                let sd := c1.setData v
                let added := s0.caches.add sd.entry s0.now tid
                ({ s0 with
                    caches := added.1,
                    events := s0.events
                      ++ sd.refreshEvs.map (fun p => Ev.refresh p.1 p.2)
                      ++ added.2,
                    resolved := s0.resolved
                      ++ sd.resolvedWaiters.map (fun p => (p.1, FetchResult.ok p.2))
                      ++ [(ep.pid, FetchResult.ok v)] },
                 some sd.entry)
              else
                ({ s0 with resolved := s0.resolved ++ [(ep.pid, FetchResult.ok v)] },
                 some c)
          | FetchResult.err e =>
              ({ s0 with resolved := s0.resolved ++ [(ep.pid, FetchResult.err e)] },
               some c)

/-! Concrete values used to evaluate the model at specific inputs. -/

/-- A populated, idle entry under key 1 (ttl 7 s, value 5). -/
def probeEntry : CachedQuery :=
  { key := 1, ttl := 7, _data := JVal.num 5, refreshing := false, listeners := [] }

/-- A second populated entry under key 1 with a different ttl and value. -/
def probeEntry2 : CachedQuery :=
  { key := 1, ttl := 3, _data := JVal.num 9, refreshing := false, listeners := [] }

/-- An entry whose stored value is falsy (0). -/
def probeFalsy : CachedQuery :=
  { key := 2, ttl := 7, _data := JVal.num 0, refreshing := false, listeners := [] }

/-- The local entry of an in-flight fetch episode for key 1. -/
def probeFetching : CachedQuery :=
  { key := 1, ttl := 10, _data := JVal.null, refreshing := true, listeners := [] }

/-- The state right after one miss arrival for key 1 on the initial state:
promise 0 pending, episode 1 outstanding, one fetch invoked. -/
def probeSys : Sys :=
  { caches := { values := [], ttlIntervals := [] },
    pendingEps := [(1, { pid := 0, cached := some probeFetching })],
    fetchCount := 1, nextId := 2, resolved := [], events := [], now := 0 }

/-- A state whose store holds the populated `probeEntry` with a live timer. -/
def probeHitSys : Sys :=
  { caches := { values := [(1, probeEntry)],
                ttlIntervals := [(1, { deadline := 7000, tid := 0 })] },
    pendingEps := [], fetchCount := 1, nextId := 2, resolved := [], events := [], now := 50 }

/-- A collection holding `probeEntry` under key 1 with a live timer. -/
def probeColl : TTLCacheCollection :=
  { values := [(1, probeEntry)], ttlIntervals := [(1, { deadline := 7000, tid := 0 })] }

/-- A collection holding an entry with no associated timer, as the
`TTLCacheCollection(values)` constructor permits. -/
def probeCollNoTimer : TTLCacheCollection :=
  { values := [(1, probeEntry)], ttlIntervals := [] }

/-! Association-list lemmas. -/

theorem lookupA_setA_self {α : Type} (k : Nat) (v : α) (l : List (Nat × α)) :
    lookupA k (setA k v l) = some v := by
  simp [setA, lookupA]

theorem lookupA_eraseA_self {α : Type} (k : Nat) (l : List (Nat × α)) :
    lookupA k (eraseA k l) = none := by
  induction l with
  | nil => rfl
  | cons p rest ih =>
      by_cases h : p.1 = k
      · simpa [eraseA, h] using ih
      · simpa [eraseA, lookupA, h] using ih

theorem lookupA_append_right {α : Type} (k : Nat) (l1 l2 : List (Nat × α))
    (h : lookupA k l1 = none) : lookupA k (l1 ++ l2) = lookupA k l2 := by
  induction l1 with
  | nil => rfl
  | cons p rest ih =>
      by_cases hp : p.1 = k
      · simp [lookupA, hp] at h
      · simp [lookupA, hp] at h ⊢
        exact ih h

theorem countKey_eraseA_self {α : Type} (k : Nat) (l : List (Nat × α)) :
    countKey k (eraseA k l) = 0 := by
  induction l with
  | nil => rfl
  | cons p rest ih =>
      by_cases h : p.1 = k
      · simpa [eraseA, h] using ih
      · simpa [eraseA, countKey, h] using ih

theorem countKey_eraseA_le {α : Type} (k k2 : Nat) (l : List (Nat × α)) :
    countKey k (eraseA k2 l) ≤ countKey k l := by
  induction l with
  | nil => exact Nat.le_refl 0
  | cons p rest ih =>
      by_cases h : p.1 = k2
      · simp only [eraseA, h, if_pos, countKey]
        exact Nat.le_trans ih (Nat.le_add_left _ _)
      · simp only [eraseA, h, if_neg, countKey, if_false]
        exact Nat.add_le_add_left ih _

theorem countKey_setA_self {α : Type} (k : Nat) (v : α) (l : List (Nat × α)) :
    countKey k (setA k v l) = 1 := by
  simp [setA, countKey, countKey_eraseA_self]

theorem countKey_setA_ne {α : Type} (k k2 : Nat) (v : α) (l : List (Nat × α))
    (h : k2 ≠ k) : countKey k (setA k2 v l) ≤ countKey k l := by
  simp only [setA, countKey, h, if_false, Nat.zero_add]
  simpa using countKey_eraseA_le k k2 l

/-! Basic facts about the collection operations. -/

theorem add_events (c : TTLCacheCollection) (cache : CachedQuery) (now tid : Nat) :
    (c.add cache now tid).2 = [Ev.add cache.key] := by
  unfold TTLCacheCollection.add TTLCacheCollection.remove
  cases lookupA cache.key c.ttlIntervals <;> simp

theorem get_add_self (c : TTLCacheCollection) (cache : CachedQuery) (now tid : Nat) :
    (c.add cache now tid).1.get cache.key = some cache := by
  simp [TTLCacheCollection.add, TTLCacheCollection.get, lookupA_setA_self]

theorem timer_add_self (c : TTLCacheCollection) (cache : CachedQuery) (now tid : Nat) :
    lookupA cache.key (c.add cache now tid).1.ttlIntervals
      = some { deadline := now + cache.ttl * 1000, tid := tid } := by
  simp [TTLCacheCollection.add, lookupA_setA_self]

theorem remove_sub_count (c : TTLCacheCollection) (key : Nat) (silent : Bool) (k : Nat) :
    countKey k (c.remove key silent).1.ttlIntervals ≤ countKey k c.ttlIntervals := by
  unfold TTLCacheCollection.remove
  cases lookupA key c.ttlIntervals with
  | none => exact Nat.le_refl _
  | some t => simpa using countKey_eraseA_le k key c.ttlIntervals

theorem add_wf (c : TTLCacheCollection) (cache : CachedQuery) (now tid : Nat)
    (hwf : TimerWF c) : TimerWF (c.add cache now tid).1 := by
  intro k
  by_cases hk : k = cache.key
  · have h1 : countKey cache.key (c.add cache now tid).1.ttlIntervals = 1 := by
      simp [TTLCacheCollection.add, countKey_setA_self]
    rw [hk]
    exact Nat.le_of_eq h1
  · have h2 : countKey k (c.add cache now tid).1.ttlIntervals
        ≤ countKey k (c.remove cache.key true).1.ttlIntervals := by
      simp only [TTLCacheCollection.add]
      exact countKey_setA_ne k cache.key _ _ (Ne.symm hk)
    exact Nat.le_trans h2 (Nat.le_trans (remove_sub_count c cache.key true k) (hwf k))

theorem remove_wf (c : TTLCacheCollection) (key : Nat) (silent : Bool)
    (hwf : TimerWF c) : TimerWF (c.remove key silent).1 :=
  fun k => Nat.le_trans (remove_sub_count c key silent k) (hwf k)

theorem expireFire_wf (c : TTLCacheCollection) (key : Nat)
    (hwf : TimerWF c) : TimerWF (c.expireFire key).1 :=
  fun k => Nat.le_trans (countKey_eraseA_le k key c.ttlIntervals) (hwf k)

/-! Basic facts about the coordinator steps. -/

theorem execCall_miss (s : Sys) (key ttl : Nat) (h : s.caches.get key = none) :
    execCall s key ttl =
      ({ s with
          pendingEps := s.pendingEps ++
            [(s.nextId + 1,
              { pid := s.nextId,
                cached := some { key := key, ttl := ttl, _data := JVal.null,
                                 refreshing := true, listeners := [] } })],
          fetchCount := s.fetchCount + 1,
          nextId := s.nextId + 2 },
       CallResult.fetching (s.nextId + 1)) := by
  simp [execCall, h]

theorem settle_fetchCount (s : Sys) (eid : Nat) (res : FetchResult) (tid : Nat) :
    (settle s eid res tid).1.fetchCount = s.fetchCount := by
  unfold settle
  repeat' split
  all_goals rfl

theorem settle_nextId (s : Sys) (eid : Nat) (res : FetchResult) (tid : Nat) :
    (settle s eid res tid).1.nextId = s.nextId := by
  unfold settle
  repeat' split
  all_goals rfl

theorem settle_caches_err (s : Sys) (eid : Nat) (e : JVal) (tid : Nat) :
    (settle s eid (FetchResult.err e) tid).1.caches = s.caches := by
  unfold settle
  repeat' split
  all_goals first | rfl | simp_all

/-! Claim theorems. -/

/-- **C1** (code bug, failing input): two interleaved `exec` calls for
key 1, both issued before the first fetch settles (no settlement has been
observed between them), invoke the underlying fetch twice — each call
takes the miss path and starts its own episode, because the refreshing
entry is never placed in the store and so the second call cannot join the
first fetch.  When the two fetches then settle with different values, the
two callers resolve with different values.  The claim's "fetch invoked
exactly once, all callers resolve with the identical value" fails. -/
theorem C1_singleflight_violation :
    (execCall Sys.init 1 10).2 = CallResult.fetching 1 ∧
    (execCall Sys.init 1 10).1.resolved = [] ∧
    (execCall (execCall Sys.init 1 10).1 1 10).2 = CallResult.fetching 3 ∧
    (execCall (execCall Sys.init 1 10).1 1 10).1.fetchCount = 2 ∧
    (settle (settle (execCall (execCall Sys.init 1 10).1 1 10).1 1
          (FetchResult.ok (JVal.num 5)) 0).1 3
        (FetchResult.ok (JVal.num 6)) 1).1.resolved
      = [(0, FetchResult.ok (JVal.num 5)), (2, FetchResult.ok (JVal.num 6))] := by
  decide

/-- **C2** counterexample: a miss for key 1 whose fetch then fails leaves
the discarded entry's `refreshing` flag still `true` (the claim says the
flag is cleared), and no `refresh` event ever fires during the failing
settlement (so a waiter registered via `once('refresh')` would never be
notified). -/
theorem C2_counterexample :
    ((settle (execCall Sys.init 1 10).1 1 (FetchResult.err (JVal.str "boom")) 0).2.map
        CachedQuery.refreshing) = some true ∧
    (settle (execCall Sys.init 1 10).1 1 (FetchResult.err (JVal.str "boom")) 0).1.events
      = [] := by
  decide

/-- **C2** (amended): when a fetch episode settles with a failure, the
`addBack` handler does nothing — the episode's entry is left untouched
(flag not cleared, value not set), no `refresh` event fires (so joined
waiters are never notified), and the store is untouched; only the original
caller's promise settles, carrying the failure. -/
theorem C2_failure_release (s : Sys) (eid : Nat) (ep : Episode)
    (c : CachedQuery) (e : JVal) (tid : Nat)
    (hep : lookupA eid s.pendingEps = some ep) (hc : ep.cached = some c) :
    (settle s eid (FetchResult.err e) tid).2 = some c ∧
    (settle s eid (FetchResult.err e) tid).1.events = s.events ∧
    (settle s eid (FetchResult.err e) tid).1.caches = s.caches ∧
    (settle s eid (FetchResult.err e) tid).1.resolved
      = s.resolved ++ [(ep.pid, FetchResult.err e)] ∧
    (settle s eid (FetchResult.err e) tid).1.pendingEps = eraseA eid s.pendingEps := by
  simp [settle, hep, hc]

/-- **C3**: a fetch episode that settles with a failure never touches the
store; in particular, after a miss for an absent key whose fetch fails,
the key is still absent, and the next request for it takes the miss path
and invokes the fetch operation a second time. -/
theorem C3_no_negative_caching :
    (∀ (s : Sys) (eid : Nat) (e : JVal) (tid : Nat),
        (settle s eid (FetchResult.err e) tid).1.caches = s.caches) ∧
    (∀ (s : Sys) (key ttl : Nat) (e : JVal) (tid : Nat),
        s.caches.get key = none →
        (settle (execCall s key ttl).1 (s.nextId + 1) (FetchResult.err e) tid).1.caches.get key
          = none ∧
        (execCall (settle (execCall s key ttl).1 (s.nextId + 1) (FetchResult.err e) tid).1
            key ttl).2
          = CallResult.fetching (s.nextId + 3) ∧
        (execCall (settle (execCall s key ttl).1 (s.nextId + 1) (FetchResult.err e) tid).1
            key ttl).1.fetchCount
          = s.fetchCount + 2) := by
  constructor
  · exact settle_caches_err
  · intro s key ttl e tid h
    have hmiss := execCall_miss s key ttl h
    have hAc : (execCall s key ttl).1.caches = s.caches := by rw [hmiss]
    have hAf : (execCall s key ttl).1.fetchCount = s.fetchCount + 1 := by rw [hmiss]
    have hAn : (execCall s key ttl).1.nextId = s.nextId + 2 := by rw [hmiss]
    have hFc : (settle (execCall s key ttl).1 (s.nextId + 1) (FetchResult.err e) tid).1.caches
        = s.caches := by rw [settle_caches_err, hAc]
    have hFf : (settle (execCall s key ttl).1 (s.nextId + 1) (FetchResult.err e) tid).1.fetchCount
        = s.fetchCount + 1 := by rw [settle_fetchCount, hAf]
    have hFn : (settle (execCall s key ttl).1 (s.nextId + 1) (FetchResult.err e) tid).1.nextId
        = s.nextId + 2 := by rw [settle_nextId, hAn]
    have hFg : (settle (execCall s key ttl).1 (s.nextId + 1) (FetchResult.err e) tid).1.caches.get key
        = none := by rw [hFc]; exact h
    have h2 := execCall_miss _ key ttl hFg
    refine ⟨hFg, ?_, ?_⟩
    · rw [h2]
      simp only [hFn]
    · rw [h2]
      simp only [hFf]

/-- **C4**: the collection keeps at most one live timer per key — the
invariant is preserved by `add` (which silently removes any prior timer
before installing the new one), by `remove` and by timer expiry — and
re-`add`ing under an existing key installs a timer whose deadline is
measured from the second insertion's time and ttl, never the first's. -/
theorem C4_timer_uniqueness_replacement :
    (∀ (c : TTLCacheCollection) (cache : CachedQuery) (now tid : Nat),
        TimerWF c → TimerWF (c.add cache now tid).1) ∧
    (∀ (c : TTLCacheCollection) (key : Nat) (silent : Bool),
        TimerWF c → TimerWF (c.remove key silent).1) ∧
    (∀ (c : TTLCacheCollection) (key : Nat),
        TimerWF c → TimerWF (c.expireFire key).1) ∧
    (∀ (c : TTLCacheCollection) (e1 e2 : CachedQuery) (t1 t2 id1 id2 : Nat),
        e1.key = e2.key →
        lookupA e2.key (((c.add e1 t1 id1).1.add e2 t2 id2).1.ttlIntervals)
          = some { deadline := t2 + e2.ttl * 1000, tid := id2 } ∧
        countKey e2.key (((c.add e1 t1 id1).1.add e2 t2 id2).1.ttlIntervals) = 1) := by
  refine ⟨add_wf, remove_wf, expireFire_wf, ?_⟩
  intro c e1 e2 t1 t2 id1 id2 _
  refine ⟨timer_add_self _ _ _ _, ?_⟩
  simp [TTLCacheCollection.add, countKey_setA_self]

/-- **C5**: a request whose key has a store entry with the refreshing flag
false resolves synchronously with the entry's cached value (read through
the `data` getter), without invoking the fetch and without touching the
store or the pending episodes; and a successful (truthy) settlement leaves
exactly such an entry in the store under the episode's key, so every later
request before eviction takes this fast path. -/
theorem C5_fast_hit :
    (∀ (s : Sys) (key ttl : Nat) (c : CachedQuery),
        s.caches.get key = some c → c.refreshing = false →
        (execCall s key ttl).2 = CallResult.hit c.data ∧
        (execCall s key ttl).1.fetchCount = s.fetchCount ∧
        (execCall s key ttl).1.resolved
          = s.resolved ++ [(s.nextId, FetchResult.ok c.data)] ∧
        (execCall s key ttl).1.caches = s.caches ∧
        (execCall s key ttl).1.pendingEps = s.pendingEps) ∧
    (∀ (s : Sys) (eid : Nat) (ep : Episode) (c : CachedQuery) (v : JVal) (tid : Nat),
        lookupA eid s.pendingEps = some ep → ep.cached = some c → v.truthy = true →
        (settle s eid (FetchResult.ok v) tid).1.caches.get c.key
          = some ((CachedQuery.setData { c with refreshing := false } v).entry) ∧
        ((CachedQuery.setData { c with refreshing := false } v).entry).refreshing = false) := by
  constructor
  · intro s key ttl c hget hflag
    refine ⟨?_, ?_, ?_, ?_, ?_⟩ <;> simp [execCall, hget, hflag]
  · intro s eid ep c v tid hep hc hv
    refine ⟨?_, rfl⟩
    have hk : ((CachedQuery.setData { c with refreshing := false } v).entry).key = c.key := rfl
    have hg := get_add_self
      ({ s with pendingEps := eraseA eid s.pendingEps } : Sys).caches
      ((CachedQuery.setData { c with refreshing := false } v).entry)
      ({ s with pendingEps := eraseA eid s.pendingEps } : Sys).now tid
    rw [hk] at hg
    simp only [settle, hep, hc, hv]
    simpa using hg

/-- **C6**: an operation that fails the cacheability test (the find-class
regex) leaves `exec` unreplaced, so every call dispatches straight to the
original `exec` — it invokes the fetch regardless of the store's contents,
and its settlement (having no `addBack` caching handler) never touches the
store, only resolving the caller. -/
theorem C6_cacheability_bypass :
    (∀ (op : String) (ttl : Nat), cacheableOp op = false →
        Query.cache op ttl = ExecMode.passthrough) ∧
    (∀ (op : String) (ttl : Nat) (s : Sys) (key : Nat), cacheableOp op = false →
        execDispatch (Query.cache op ttl) s key = execPlain s) ∧
    (∀ (s : Sys),
        (execPlain s).1.fetchCount = s.fetchCount + 1 ∧
        (execPlain s).1.caches = s.caches ∧
        (execPlain s).2 = CallResult.fetching (s.nextId + 1)) ∧
    (∀ (s : Sys) (res : FetchResult) (tid : Nat),
        lookupA (s.nextId + 1) s.pendingEps = none →
        (settle (execPlain s).1 (s.nextId + 1) res tid).1.caches = s.caches ∧
        (settle (execPlain s).1 (s.nextId + 1) res tid).1.resolved
          = s.resolved ++ [(s.nextId, res)]) := by
  refine ⟨?_, ?_, ?_, ?_⟩
  · intro op ttl h
    simp [Query.cache, h]
  · intro op ttl s key h
    simp [Query.cache, h, execDispatch]
  · intro s
    refine ⟨rfl, rfl, rfl⟩
  · intro s res tid hfresh
    have hlk : lookupA (s.nextId + 1)
        (s.pendingEps ++ [(s.nextId + 1, ({ pid := s.nextId, cached := none } : Episode))])
        = some ({ pid := s.nextId, cached := none } : Episode) := by
      rw [lookupA_append_right _ _ _ hfresh]
      simp [lookupA]
    constructor <;> simp [settle, execPlain, hlk]

/-- **C7** (implicit): the success handler is gated on the truthiness of
the result, not on success itself — a successful settlement with a falsy
result behaves exactly like a failure: the store is untouched, the
episode's entry is returned unchanged (value not set, flag not cleared),
no event fires, and only the caller's promise settles with the result. -/
theorem C7_truthiness_gates_caching (s : Sys) (eid : Nat) (ep : Episode)
    (c : CachedQuery) (v : JVal) (tid : Nat)
    (hep : lookupA eid s.pendingEps = some ep) (hc : ep.cached = some c)
    (hv : v.truthy = false) :
    (settle s eid (FetchResult.ok v) tid).1.caches = s.caches ∧
    (settle s eid (FetchResult.ok v) tid).2 = some c ∧
    (settle s eid (FetchResult.ok v) tid).1.resolved
      = s.resolved ++ [(ep.pid, FetchResult.ok v)] ∧
    (settle s eid (FetchResult.ok v) tid).1.events = s.events ∧
    (∀ e : JVal,
        (settle s eid (FetchResult.err e) tid).1.caches = s.caches ∧
        (settle s eid (FetchResult.err e) tid).2 = some c ∧
        (settle s eid (FetchResult.err e) tid).1.resolved
          = s.resolved ++ [(ep.pid, FetchResult.err e)] ∧
        (settle s eid (FetchResult.err e) tid).1.events = s.events) := by
  refine ⟨?_, ?_, ?_, ?_, ?_⟩
  · simp [settle, hep, hc, hv]
  · simp [settle, hep, hc, hv]
  · simp [settle, hep, hc, hv]
  · simp [settle, hep, hc, hv]
  · intro e
    refine ⟨?_, ?_, ?_, ?_⟩ <;> simp [settle, hep, hc]

/-- **C8**: the `data` setter fires exactly one `refresh` event, carrying
the new value and the previous raw `_data` in that order, and leaves key,
ttl and the refreshing flag unchanged while assigning `_data`; through the
success path of a settlement this surfaces as exactly one `refresh` event
(followed by the store's `add` event) appended to the event log. -/
theorem C8_refresh_notification :
    (∀ (c : CachedQuery) (v : JVal),
        (c.setData v).refreshEvs = [(v, c._data)] ∧
        (c.setData v).entry._data = v ∧
        (c.setData v).entry.key = c.key ∧
        (c.setData v).entry.ttl = c.ttl ∧
        (c.setData v).entry.refreshing = c.refreshing ∧
        (c.setData v).resolvedWaiters = c.listeners.map (fun pid => (pid, v))) ∧
    (∀ (s : Sys) (eid : Nat) (ep : Episode) (c : CachedQuery) (v : JVal) (tid : Nat),
        lookupA eid s.pendingEps = some ep → ep.cached = some c → v.truthy = true →
        (settle s eid (FetchResult.ok v) tid).1.events
          = s.events ++ [Ev.refresh v c._data, Ev.add c.key]) := by
  constructor
  · intro c v
    refine ⟨rfl, rfl, rfl, rfl, rfl, rfl⟩
  · intro s eid ep c v tid hep hc hv
    simp [settle, hep, hc, hv, CachedQuery.setData, add_events]

/-- **C9** counterexample: on a collection holding an entry with no
associated timer (as the constructor's initial `values` permits),
`remove` is a no-op — the entry is still retrievable afterwards and no
`remove` event is emitted, contradicting the claim that `Remove(key)`
deletes the entry even when it had no timer. -/
theorem C9_counterexample :
    (probeCollNoTimer.remove 1 false).1.get 1 = some probeEntry ∧
    (probeCollNoTimer.remove 1 false).2 = [] := by
  decide

/-- **C9** (amended): `remove(key, silent)` acts only when a live timer
exists for `key`: it then cancels the timer, deletes both the timer handle
and the entry (so `get` reports absence), and emits `remove` unless
silent; when the key has no timer, it does nothing — the entry, if any,
stays and no event is emitted. -/
theorem C9_remove_semantics (c : TTLCacheCollection) (key : Nat) (silent : Bool) :
    ((∃ t, lookupA key c.ttlIntervals = some t) →
        (c.remove key silent).1.get key = none ∧
        lookupA key (c.remove key silent).1.ttlIntervals = none ∧
        (c.remove key silent).2 = (if silent then [] else [Ev.remove])) ∧
    (lookupA key c.ttlIntervals = none → c.remove key silent = (c, [])) := by
  constructor
  · rintro ⟨t, ht⟩
    refine ⟨?_, ?_, ?_⟩ <;>
      simp [TTLCacheCollection.remove, TTLCacheCollection.get, ht, lookupA_eraseA_self]
  · intro h
    simp [TTLCacheCollection.remove, h]

/-- **C10** (implicit): the `data` getter turns every falsy stored value
into `null`, so a caller served from the cache observes either a truthy
value or `null`, never another falsy value. -/
theorem C10_falsy_reads_null (c : CachedQuery) :
    (c._data.truthy = false → c.data = JVal.null) ∧
    (c.data = JVal.null ∨ c.data.truthy = true) := by
  constructor
  · intro h
    simp [CachedQuery.data, h]
  · cases h : c._data.truthy with
    | false => left; simp [CachedQuery.data, h]
    | true => right; simp [CachedQuery.data, h]

/-! Witnesses: each theorem with hypotheses, instantiated at concrete
values with the hypotheses discharged. -/

/-- Witness for C2 at a concrete failing episode for key 1. -/
theorem C2_witness :
    (settle probeSys 1 (FetchResult.err (JVal.str "boom")) 0).2 = some probeFetching ∧
    (settle probeSys 1 (FetchResult.err (JVal.str "boom")) 0).1.resolved
      = probeSys.resolved ++ [(0, FetchResult.err (JVal.str "boom"))] := by
  have h := C2_failure_release probeSys 1 { pid := 0, cached := some probeFetching }
    probeFetching (JVal.str "boom") 0 rfl rfl
  exact ⟨h.1, h.2.2.2.1⟩

/-- Witness for C3: failing fetch for key 1 from the initial state, then a
retry that invokes the fetch a second time. -/
theorem C3_witness :
    (settle (execCall Sys.init 1 10).1 (Sys.init.nextId + 1)
        (FetchResult.err (JVal.num 7)) 0).1.caches.get 1 = none ∧
    (execCall (settle (execCall Sys.init 1 10).1 (Sys.init.nextId + 1)
        (FetchResult.err (JVal.num 7)) 0).1 1 10).1.fetchCount
      = Sys.init.fetchCount + 2 := by
  have h := C3_no_negative_caching.2 Sys.init 1 10 (JVal.num 7) 0 rfl
  exact ⟨h.1, h.2.2⟩

/-- Witness for C4: adding key 1 twice leaves exactly the second timer. -/
theorem C4_witness :
    TimerWF (({ values := [], ttlIntervals := [] } : TTLCacheCollection).add probeEntry 0 0).1 ∧
    lookupA probeEntry2.key
        (((({ values := [], ttlIntervals := [] } : TTLCacheCollection).add probeEntry 0 0).1.add
            probeEntry2 5000 1).1.ttlIntervals)
      = some { deadline := 5000 + probeEntry2.ttl * 1000, tid := 1 } :=
  ⟨C4_timer_uniqueness_replacement.1 _ probeEntry 0 0 (fun _ => Nat.zero_le 1),
   (C4_timer_uniqueness_replacement.2.2.2 _ probeEntry probeEntry2 0 5000 0 1 rfl).1⟩

/-- Witness for C5: a hit on the populated `probeEntry` resolves with its
data and does not invoke the fetch. -/
theorem C5_witness :
    (execCall probeHitSys 1 10).2 = CallResult.hit probeEntry.data ∧
    (execCall probeHitSys 1 10).1.fetchCount = probeHitSys.fetchCount := by
  have h := C5_fast_hit.1 probeHitSys 1 10 probeEntry rfl rfl
  exact ⟨h.1, h.2.1⟩

/-- Witness for C6: the `update` operation is not cacheable, dispatches to
the original `exec`, and its settlement leaves the store untouched. -/
theorem C6_witness :
    Query.cache "update" 5 = ExecMode.passthrough ∧
    execDispatch (Query.cache "update" 5) Sys.init 1 = execPlain Sys.init ∧
    (settle (execPlain Sys.init).1 (Sys.init.nextId + 1)
        (FetchResult.ok (JVal.num 4)) 0).1.caches = Sys.init.caches :=
  ⟨C6_cacheability_bypass.1 "update" 5 (by decide),
   C6_cacheability_bypass.2.1 "update" 5 Sys.init 1 (by decide),
   (C6_cacheability_bypass.2.2.2 Sys.init (FetchResult.ok (JVal.num 4)) 0 rfl).1⟩

/-- Witness for C7: a successful settlement with the falsy result 0 leaves
the store untouched and the episode's entry unchanged. -/
theorem C7_witness :
    (settle probeSys 1 (FetchResult.ok (JVal.num 0)) 0).1.caches = probeSys.caches ∧
    (settle probeSys 1 (FetchResult.ok (JVal.num 0)) 0).2 = some probeFetching := by
  have h := C7_truthiness_gates_caching probeSys 1 { pid := 0, cached := some probeFetching }
    probeFetching (JVal.num 0) 0 rfl rfl (by decide)
  exact ⟨h.1, h.2.1⟩

/-- Witness for C8: the successful settlement of the pending episode
appends exactly one `refresh` event (then the store's `add`). -/
theorem C8_witness :
    (settle probeSys 1 (FetchResult.ok (JVal.num 5)) 0).1.events
      = probeSys.events
          ++ [Ev.refresh (JVal.num 5) probeFetching._data, Ev.add probeFetching.key] :=
  C8_refresh_notification.2 probeSys 1 { pid := 0, cached := some probeFetching }
    probeFetching (JVal.num 5) 0 rfl rfl (by decide)

/-- Witness for C9: removing key 1 from a collection where it has a live
timer deletes both the entry and the timer. -/
theorem C9_witness :
    (probeColl.remove 1 false).1.get 1 = none ∧
    lookupA 1 (probeColl.remove 1 false).1.ttlIntervals = none := by
  have h := (C9_remove_semantics probeColl 1 false).1 ⟨{ deadline := 7000, tid := 0 }, rfl⟩
  exact ⟨h.1, h.2.1⟩

/-- Witness for C10: the falsy stored value 0 reads back as `null`. -/
theorem C10_witness :
    probeFalsy._data.truthy = false ∧ probeFalsy.data = JVal.null :=
  ⟨by decide, (C10_falsy_reads_null probeFalsy).1 (by decide)⟩

end MqueryCache
